import Mathlib

/-!
Verification of the Osaka mansion analysis dashboard (streamlit_app.py).

The script's pandas pipeline is embedded shallowly:
* a DataFrame row becomes a `Record`; a DataFrame becomes a `List Record`
  (order = file order, preserved by pandas boolean masking);
* numeric columns are embedded as exact rationals (`ℚ`);
* pandas `NaN` (the value produced by `Series.mean()` on an empty series,
  and propagated through arithmetic) is embedded by the `PdVal` sum type;
* Python's raising float division is embedded in `Except`;
* the sidebar widgets' outputs become a `Criteria` value object;
* `sort_values(..., ascending=False)` is pandas `nargsort`: the values
  and their positions are reversed, an ascending stable argsort is
  taken, and the resulting indexer is reversed again, so a descending
  sort keeps tied rows in their original order; embedded as
  `List.reverse`, then the stable `List.insertionSort`, then
  `List.reverse`;
* `pd.cut(x, bins=[30,50,70,100], labels=...)` uses pandas' default
  `right=True`: half-open intervals that exclude the left endpoint and
  include the right one, embedded by `areaBand`;
* `groupby` on the categorical band column keeps every declared category
  (pandas default `observed=False`), embedded by mapping over the full
  label list;
* the script's mutation of `filtered_df` (the in-place addition of the
  band column) is embedded by an explicit state machine over `AppState`.
-/

/-- One transaction row of `data/osaka_mansion_cleaned.csv`.
Field ↔ column: `ward` ↔ 市区町村名, `area` ↔ 面積（㎡）, `age` ↔ 築年数,
`dist` ↔ 最寄駅：距離（分）, `unitPrice` ↔ 平米単価,
`totalPrice` ↔ 取引価格（総額）. -/
structure Record where
  ward : String
  area : ℚ
  age : ℚ
  dist : ℚ
  unitPrice : ℚ
  totalPrice : ℚ
deriving DecidableEq, Repr

/-- The sidebar widget state: the multiselect list `selected_ward` and the
three range sliders (area, age, station distance). -/
structure Criteria where
  selectedWards : List String
  areaMin : ℚ
  areaMax : ℚ
  ageMin : ℚ
  ageMax : ℚ
  distMin : ℚ
  distMax : ℚ
deriving DecidableEq, Repr

/-- The numeric mask of lines 68–75 of the script: all six range
comparisons are inclusive (`>=` / `<=`) and conjoined. -/
def matchesNumeric (c : Criteria) (r : Record) : Bool :=
  decide (c.areaMin ≤ r.area) && decide (r.area ≤ c.areaMax) &&
  decide (c.ageMin ≤ r.age) && decide (r.age ≤ c.ageMax) &&
  decide (c.distMin ≤ r.dist) && decide (r.dist ≤ c.distMax)

/-- The filter pipeline of lines 62–75: start from a copy of `df`; if the
sentinel `"全て"` is not among the selected wards, keep rows whose ward is
in the selection (`isin`); then apply the numeric mask. -/
def filterRecords (df : List Record) (c : Criteria) : List Record :=
  let step1 := if c.selectedWards.contains "全て" then df
               else df.filter (fun r => c.selectedWards.contains r.ward)
  step1.filter (matchesNumeric c)

/-- Pandas `NaN` as produced and propagated by the script's aggregations:
`Series.mean()` on an empty series yields `NaN`, and arithmetic on `NaN`
yields `NaN`. -/
inductive PdVal where
  | nan : PdVal
  | val : ℚ → PdVal
deriving DecidableEq, Repr

/-- `Series.mean()`: `NaN` on an empty series, the arithmetic mean
otherwise. -/
def seriesMean (xs : List ℚ) : PdVal :=
  if xs.isEmpty then PdVal.nan else PdVal.val (xs.sum / xs.length)

/-- Line 93: `filtered_df['平米単価'].mean()`. -/
def meanUnitPrice (view : List Record) : PdVal :=
  seriesMean (view.map (fun r => r.unitPrice))

/-- Line 99: `filtered_df['取引価格（総額）'].mean()` (the display then
divides by 10000, which keeps `NaN` as `NaN`). -/
def meanTotalPrice (view : List Record) : PdVal :=
  seriesMean (view.map (fun r => r.totalPrice))

/-- Line 105: `filtered_df['面積（㎡）'].mean()`. -/
def meanArea (view : List Record) : PdVal :=
  seriesMean (view.map (fun r => r.area))

/-- Line 111: `filtered_df['築年数'].mean()`. -/
def meanAge (view : List Record) : PdVal :=
  seriesMean (view.map (fun r => r.age))

/-- Python's f-string float formatting, restricted to what the metrics
code path needs: `NaN` renders as the string "nan" without raising. -/
def formatMetric (v : PdVal) : String :=
  match v with
  | PdVal.nan => "nan"
  | PdVal.val q => toString q

/-- Line 213: `gross_yield = (sim_rent * 12) / sim_price * 100`. -/
def gross_yield (price rent : ℚ) : ℚ := rent * 12 / price * 100

/-- Line 217: `net_yield = ((sim_rent * 12) * (1 - sim_cost/100)) / sim_price * 100`
(the widget supplies `sim_cost` as a percentage). -/
def net_yield (price rent cost : ℚ) : ℚ :=
  rent * 12 * (1 - cost / 100) / price * 100

/-- Line 221: `annual_cashflow = (sim_rent * 12) * (1 - sim_cost/100)`. -/
def annual_cashflow (rent cost : ℚ) : ℚ := rent * 12 * (1 - cost / 100)

/-- Python's `/` on numbers: raises `ZeroDivisionError` on a zero
divisor, otherwise returns the quotient. -/
def pyDiv (a b : ℚ) : Except String ℚ :=
  if b = 0 then Except.error "ZeroDivisionError" else Except.ok (a / b)

/-- Line 225: `payback = sim_price / annual_cashflow`, a bare Python
division with no guard. -/
def payback_years (price rent cost : ℚ) : Except String ℚ :=
  pyDiv price (annual_cashflow rent cost)

/-- The spec's gross-yield formula, with the cost ratio as a fraction. -/
def specGrossYield (P R : ℚ) : ℚ := (R * 12) / P * 100

/-- The spec's net-yield formula, with the cost ratio C as a fraction. -/
def specNetYield (P R C : ℚ) : ℚ := (R * 12) * (1 - C) / P * 100

/-- The spec's annual-cashflow formula, with the cost ratio C as a
fraction. -/
def specAnnualCashflow (R C : ℚ) : ℚ := (R * 12) * (1 - C)

/-- `pd.cut(filtered_df["面積（㎡）"], bins=[30,50,70,100], labels=...)`
(lines 234–236). Pandas' default `right=True` makes each interval
exclude its left endpoint and include its right one: the bins are
(30,50], (50,70], (70,100]; values outside every bin get `NaN`
(embedded as `none`). -/
def areaBand (a : ℚ) : Option String :=
  if 30 < a ∧ a ≤ 50 then some "30-50㎡"
  else if 50 < a ∧ a ≤ 70 then some "50-70㎡"
  else if 70 < a ∧ a ≤ 100 then some "70-100㎡"
  else none

/-- The fixed band labels of line 235 (`area_labels`). -/
def bandLabels : List String := ["30-50㎡", "50-70㎡", "70-100㎡"]

/-- The records of a view whose area falls in the band labelled `b`. -/
def bandGroup (view : List Record) (b : String) : List Record :=
  view.filter (fun r => decide (areaBand r.area = some b))

/-- Line 238: `filtered_df.groupby("面積帯")["平米単価"].mean().reset_index()`.
The band column is categorical, and pandas' default `observed=False`
keeps every declared category in the groupby output, so the result has
one row per label in `bandLabels`, with mean `NaN` for a band no record
falls into; rows whose band is `NaN` (area outside every bin) are
dropped by the groupby. -/
def area_yield (view : List Record) : List (String × PdVal) :=
  bandLabels.map (fun b =>
    (b, seriesMean ((bandGroup view b).map (fun r => r.unitPrice))))

/-- Line 241: `(12 * 12) / (mean * 60) * 100`, a pandas column division:
`NaN` propagates to `NaN`. -/
def estimatedYield : PdVal → PdVal
  | PdVal.nan => PdVal.nan
  | PdVal.val m => PdVal.val (12 * 12 / (m * 60) * 100)

/-- The banded-yield table: per band, the mean unit price (line 238) and
the estimated gross yield column added on line 241. -/
def area_yield_table (view : List Record) : List (String × PdVal × PdVal) :=
  (area_yield view).map (fun p => (p.1, p.2, estimatedYield p.2))

/-- The distinct ward names of a view (`groupby` key values). -/
def wardNames (view : List Record) : List String :=
  (view.map (fun r => r.ward)).dedup

/-- The groupby key order: pandas `groupby` sorts its keys ascending
(default `sort=True`); string order is codepoint-lexicographic, which is
the order on the underlying character list `data`. -/
def sortedWards (view : List Record) : List String :=
  List.insertionSort (fun a b => a.data ≤ b.data) (wardNames view)

/-- The rows of a view belonging to ward `w`. -/
def wardGroup (view : List Record) (w : String) : List Record :=
  view.filter (fun r => decide (r.ward = w))

/-- One output row of the `ward_stats` aggregation of lines 159–166:
per-ward means of the five numeric columns and the record count. -/
structure WardRow where
  ward : String
  unitPriceMean : ℚ
  totalPriceMean : ℚ
  areaMean : ℚ
  ageMean : ℚ
  distMean : ℚ
  count : Nat
deriving DecidableEq, Repr

/-- The aggregation row for ward `w` (`agg` of lines 159–166): each
numeric column's group mean and the group size (`count`). -/
def mkWardRow (view : List Record) (w : String) : WardRow :=
  { ward := w,
    unitPriceMean :=
      ((wardGroup view w).map (fun r => r.unitPrice)).sum /
        (wardGroup view w).length,
    totalPriceMean :=
      ((wardGroup view w).map (fun r => r.totalPrice)).sum /
        (wardGroup view w).length,
    areaMean :=
      ((wardGroup view w).map (fun r => r.area)).sum /
        (wardGroup view w).length,
    ageMean :=
      ((wardGroup view w).map (fun r => r.age)).sum /
        (wardGroup view w).length,
    distMean :=
      ((wardGroup view w).map (fun r => r.dist)).sum /
        (wardGroup view w).length,
    count := (wardGroup view w).length }

/-- The grouped table after `reset_index` (line 166): one row per ward,
in the groupby's ascending key order. -/
def groupRows (view : List Record) : List WardRow :=
  (sortedWards view).map (mkWardRow view)

/-- Line 168: `ward_stats.sort_values("平米単価", ascending=False)`.
For a descending sort pandas `nargsort` reverses the values and their
positions, takes an ascending argsort, and reverses the resulting
indexer, so the two reversals cancel on tied runs and the sort is
stable: rows with equal keys keep their original order. Embedded as a
reversal, a stable ascending sort by mean unit price, and a reversal. -/
def ward_stats (view : List Record) : List WardRow :=
  (List.insertionSort (fun a b => a.unitPriceMean ≤ b.unitPriceMean)
    (groupRows view).reverse).reverse

/-- The Filtered View's data frame: its records plus, once line 236 has
run, the in-place added categorical band column 面積帯 (a `NaN` entry is
`none`). -/
structure Frame where
  recs : List Record
  band : Option (List (Option String))
deriving DecidableEq, Repr

/-- Line 236: `filtered_df["面積帯"] = pd.cut(filtered_df["面積（㎡）"], ...)`,
the in-place addition of the band column to the Filtered View. -/
def addBandColumn (f : Frame) : Frame :=
  { recs := f.recs, band := some (f.recs.map (fun r => areaBand r.area)) }

/-- The dataset's original column set (header of the loaded file). -/
def baseHeader : List String :=
  ["市区町村名", "面積（㎡）", "築年数", "最寄駅：距離（分）", "平米単価",
   "取引価格（総額）"]

/-- The serialized cells of one record, in `baseHeader` order. -/
def recordCells (r : Record) : List String :=
  [r.ward, toString r.area, toString r.age, toString r.dist,
   toString r.unitPrice, toString r.totalPrice]

/-- `to_csv` serializes a categorical `NaN` cell as the empty string. -/
def bandCell : Option String → String
  | none => ""
  | some s => s

/-- The header row of `filtered_df.to_csv` (line 294): the original
columns, plus 面積帯 when the band column has been added. -/
def csvHeader (f : Frame) : List String :=
  baseHeader ++ (match f.band with | none => [] | some _ => ["面積帯"])

/-- The data rows of `filtered_df.to_csv` (line 294). -/
def csvRows (f : Frame) : List (List String) :=
  match f.band with
  | none => f.recs.map recordCells
  | some col => (f.recs.zip col).map (fun p => recordCells p.1 ++ [bandCell p.2])

/-- The full export of line 294: header row then data rows. -/
def to_csv (f : Frame) : List (List String) := csvHeader f :: csvRows f

/-- The data preview of line 308: `filtered_df.head(20)`. -/
def previewRows (f : Frame) : List (List String) := (csvRows f).take 20

/-- The script's mutable state: the cached dataset `df` and the derived
`filtered_df` frame. -/
structure AppState where
  df : List Record
  filtered : Frame
deriving DecidableEq, Repr

/-- The state-touching operations of one script run, in source order:
filtering (lines 62–75), the aggregations and charts (read-only), the
simulator (reads only its widget inputs), the band-column addition
(line 236), the export (line 294) and the preview (line 308). -/
inductive AppOp where
  | applyFilter : Criteria → AppOp
  | computeAggregates : AppOp
  | runSimulation : AppOp
  | computeBandColumn : AppOp
  | exportCsv : AppOp
  | previewTable : AppOp
deriving DecidableEq, Repr

/-- Effect of each operation on the script state. `applyFilter` starts
from `df.copy()` (line 63), so it installs a fresh frame and leaves `df`
alone; `computeBandColumn` mutates only `filtered_df`; the remaining
operations read state without writing it. -/
def stepApp (s : AppState) (op : AppOp) : AppState :=
  match op with
  | AppOp.applyFilter c =>
      { df := s.df, filtered := { recs := filterRecords s.df c, band := none } }
  | AppOp.computeBandColumn => { df := s.df, filtered := addBandColumn s.filtered }
  | _ => s

/-- Run a sequence of operations from a state. -/
def runApp (s : AppState) (ops : List AppOp) : AppState := ops.foldl stepApp s

/-- The operations of one full script run, in source order. -/
def appScript (c : Criteria) : List AppOp :=
  [AppOp.applyFilter c, AppOp.computeAggregates, AppOp.runSimulation,
   AppOp.computeBandColumn, AppOp.exportCsv, AppOp.previewTable]


/-- C1: the Filter Engine returns exactly the records of the dataset that
satisfy all active predicates conjointly: the ward predicate is vacuous
when the sentinel "全て" is selected and is membership of the selection
otherwise, and each numeric range is inclusive at both endpoints; hence
the result is contained in the dataset and a dataset record is in the
result iff it violates no active predicate. -/
theorem filterEngine_exact (df : List Record) (c : Criteria) :
    filterRecords df c =
      df.filter (fun r =>
        (c.selectedWards.contains "全て" || c.selectedWards.contains r.ward) &&
        matchesNumeric c r) ∧
    (∀ r : Record, r ∈ filterRecords df c ↔
      r ∈ df ∧
      ("全て" ∈ c.selectedWards ∨ r.ward ∈ c.selectedWards) ∧
      c.areaMin ≤ r.area ∧ r.area ≤ c.areaMax ∧
      c.ageMin ≤ r.age ∧ r.age ≤ c.ageMax ∧
      c.distMin ≤ r.dist ∧ r.dist ≤ c.distMax) ∧
    filterRecords df c ⊆ df := by
  have hEq : filterRecords df c =
      df.filter (fun r =>
        (c.selectedWards.contains "全て" || c.selectedWards.contains r.ward) &&
        matchesNumeric c r) := by
    unfold filterRecords
    cases h : c.selectedWards.contains "全て"
    · simp only [h, Bool.false_eq_true, if_false]
      rw [List.filter_filter]
      apply List.filter_congr
      intro r _
      cases hc : c.selectedWards.contains r.ward <;> simp [hc]
    · simp only [h, if_true, Bool.true_or]
      rfl
  refine ⟨hEq, ?_, ?_⟩
  · intro r
    rw [hEq, List.mem_filter]
    constructor
    · rintro ⟨hmem, hpred⟩
      simp only [Bool.and_eq_true, Bool.or_eq_true, List.contains, List.elem_eq_mem,
        decide_eq_true_eq, matchesNumeric] at hpred
      exact ⟨hmem, by tauto⟩
    · rintro ⟨hmem, hward, h1, h2, h3, h4, h5, h6⟩
      refine ⟨hmem, ?_⟩
      simp only [Bool.and_eq_true, Bool.or_eq_true, List.contains, List.elem_eq_mem,
        decide_eq_true_eq, matchesNumeric]
      tauto
  · intro r hr
    rw [hEq] at hr
    exact List.mem_filter.mp hr |>.1

/-- C8: filtering is idempotent: re-applying the filter pipeline with the
same criteria to an already filtered list returns it unchanged. -/
theorem filterEngine_idempotent (df : List Record) (c : Criteria) :
    filterRecords (filterRecords df c) c = filterRecords df c := by
  have h := (filterEngine_exact df c).1
  have h2 := (filterEngine_exact (filterRecords df c) c).1
  rw [h2, h, List.filter_filter]
  apply List.filter_congr
  intro r _
  cases hw : c.selectedWards.contains "全て" <;>
    cases hw2 : c.selectedWards.contains r.ward <;>
    cases hn : matchesNumeric c r <;> simp [hw, hw2, hn]

/-- C2: the simulator computes the spec's formulas — with the widget's
percentage input `cost` playing the role of `100 × C` for the spec's
fractional cost ratio `C` — and at the spec's reference point
(P = 3000, R = 12, cost = 20%) it returns a gross yield of 4.8 %, a net
yield of 3.84 %, an annual cashflow of 115.2, and a payback of
625/24 ≈ 26.04 years. -/
theorem simulator_formulas_and_reference_point :
    (∀ P R C : ℚ,
      gross_yield P R = specGrossYield P R ∧
      net_yield P R (100 * C) = specNetYield P R C ∧
      annual_cashflow R (100 * C) = specAnnualCashflow R C) ∧
    gross_yield 3000 12 = 24/5 ∧
    net_yield 3000 12 20 = 96/25 ∧
    annual_cashflow 12 20 = 576/5 ∧
    payback_years 3000 12 20 = Except.ok (625/24) ∧
    |(625 : ℚ)/24 - 2604/100| < 1/100 := by
  refine ⟨?_, ?_, ?_, ?_, ?_, ?_⟩
  · intro P R C
    refine ⟨?_, ?_, ?_⟩ <;>
      simp only [gross_yield, net_yield, annual_cashflow,
        specGrossYield, specNetYield, specAnnualCashflow] <;> ring
  · norm_num [gross_yield]
  · norm_num [net_yield]
  · norm_num [annual_cashflow]
  · norm_num [payback_years, pyDiv, annual_cashflow]
  · rw [abs_sub_lt_iff]
    constructor <;> norm_num

/-- C3 counterexample: on the empty Filtered View every scalar mean
aggregation evaluates to pandas `NaN` — not to a distinct "no data"
signal — and the metric formatter consumes it silently as the string
"nan". -/
theorem empty_view_means_are_nan :
    meanUnitPrice [] = PdVal.nan ∧ meanTotalPrice [] = PdVal.nan ∧
    meanArea [] = PdVal.nan ∧ meanAge [] = PdVal.nan ∧
    formatMetric (meanUnitPrice []) = "nan" := by
  refine ⟨rfl, rfl, rfl, rfl, rfl⟩

/-- C3 (amended): the scalar aggregations are total — on a non-empty
Filtered View each one is the arithmetic mean of its field, and on the
empty view each one is `NaN`, which the formatter turns into the string
"nan" without raising; no distinct "no data" marker is produced. -/
theorem aggregation_mean_behavior (view : List Record) (h : view ≠ []) :
    meanUnitPrice view =
      PdVal.val ((view.map (fun r => r.unitPrice)).sum / view.length) ∧
    meanTotalPrice view =
      PdVal.val ((view.map (fun r => r.totalPrice)).sum / view.length) ∧
    meanArea view =
      PdVal.val ((view.map (fun r => r.area)).sum / view.length) ∧
    meanAge view =
      PdVal.val ((view.map (fun r => r.age)).sum / view.length) := by
  have hne : ∀ f : Record → ℚ, (view.map f).isEmpty = false := by
    intro f
    simp [List.isEmpty_iff, h]
  refine ⟨?_, ?_, ?_, ?_⟩ <;>
    simp [meanUnitPrice, meanTotalPrice, meanArea, meanAge, seriesMean, hne]

/-- C3 witness: the amended aggregation theorem applied to a one-record
view. -/
theorem aggregation_mean_behavior_witness :
    meanUnitPrice [⟨"北区", 45, 10, 5, 60, 2700⟩] =
      PdVal.val (([⟨"北区", 45, 10, 5, 60, 2700⟩].map
        (fun r : Record => r.unitPrice)).sum /
        ([⟨"北区", (45 : ℚ), 10, 5, 60, 2700⟩] : List Record).length) :=
  (aggregation_mean_behavior [⟨"北区", 45, 10, 5, 60, 2700⟩]
    (by simp)).1

/-- C4 counterexample: `pd.cut` with the default `right=True` places a
record with area exactly 50 in the "30-50㎡" band, not in the "50-70㎡"
band, and leaves area exactly 30 without a band. -/
theorem area_band_boundary_counterexample :
    areaBand 50 = some "30-50㎡" ∧
    areaBand 50 ≠ some "50-70㎡" ∧
    areaBand 30 = none ∧
    areaBand 100 = some "70-100㎡" := by
  refine ⟨?_, ?_, ?_, ?_⟩ <;> decide

/-- C4 (amended): area-band bucketing is left-exclusive and
right-inclusive: the bands are (30,50], (50,70], (70,100], a record with
area exactly 50 falls in the "30-50㎡" band, and areas at most 30 or
above 100 fall in no band. -/
theorem area_band_characterization (a : ℚ) :
    (areaBand a = some "30-50㎡" ↔ 30 < a ∧ a ≤ 50) ∧
    (areaBand a = some "50-70㎡" ↔ 50 < a ∧ a ≤ 70) ∧
    (areaBand a = some "70-100㎡" ↔ 70 < a ∧ a ≤ 100) ∧
    (areaBand a = none ↔ a ≤ 30 ∨ 100 < a) := by
  have e1 : 30 < a ∧ a ≤ 50 → areaBand a = some "30-50㎡" := by
    intro h
    unfold areaBand
    rw [if_pos h]
  have e2 : 50 < a ∧ a ≤ 70 → areaBand a = some "50-70㎡" := by
    intro h
    unfold areaBand
    rw [if_neg (by rintro ⟨-, hh⟩; linarith [h.1]), if_pos h]
  have e3 : 70 < a ∧ a ≤ 100 → areaBand a = some "70-100㎡" := by
    intro h
    unfold areaBand
    rw [if_neg (by rintro ⟨-, hh⟩; linarith [h.1]),
      if_neg (by rintro ⟨-, hh⟩; linarith [h.1]), if_pos h]
  have e4 : a ≤ 30 ∨ 100 < a → areaBand a = none := by
    intro h
    unfold areaBand
    rcases h with h | h
    · rw [if_neg (by rintro ⟨hh, -⟩; linarith),
        if_neg (by rintro ⟨hh, -⟩; linarith),
        if_neg (by rintro ⟨hh, -⟩; linarith)]
    · rw [if_neg (by rintro ⟨-, hh⟩; linarith),
        if_neg (by rintro ⟨-, hh⟩; linarith),
        if_neg (by rintro ⟨-, hh⟩; linarith)]
  have tot : (30 < a ∧ a ≤ 50) ∨ (50 < a ∧ a ≤ 70) ∨ (70 < a ∧ a ≤ 100) ∨
      (a ≤ 30 ∨ 100 < a) := by
    rcases le_or_lt a 30 with h30 | h30
    · exact Or.inr (Or.inr (Or.inr (Or.inl h30)))
    rcases le_or_lt a 50 with h50 | h50
    · exact Or.inl ⟨h30, h50⟩
    rcases le_or_lt a 70 with h70 | h70
    · exact Or.inr (Or.inl ⟨h50, h70⟩)
    rcases le_or_lt a 100 with h100 | h100
    · exact Or.inr (Or.inr (Or.inl ⟨h70, h100⟩))
    · exact Or.inr (Or.inr (Or.inr (Or.inr h100)))
  have f1 : areaBand a = some "30-50㎡" → 30 < a ∧ a ≤ 50 := by
    intro hx
    rcases tot with h | h | h | h
    · exact h
    · rw [e2 h] at hx; simp at hx
    · rw [e3 h] at hx; simp at hx
    · rw [e4 h] at hx; simp at hx
  have f2 : areaBand a = some "50-70㎡" → 50 < a ∧ a ≤ 70 := by
    intro hx
    rcases tot with h | h | h | h
    · rw [e1 h] at hx; simp at hx
    · exact h
    · rw [e3 h] at hx; simp at hx
    · rw [e4 h] at hx; simp at hx
  have f3 : areaBand a = some "70-100㎡" → 70 < a ∧ a ≤ 100 := by
    intro hx
    rcases tot with h | h | h | h
    · rw [e1 h] at hx; simp at hx
    · rw [e2 h] at hx; simp at hx
    · exact h
    · rw [e4 h] at hx; simp at hx
  have f4 : areaBand a = none → a ≤ 30 ∨ 100 < a := by
    intro hx
    rcases tot with h | h | h | h
    · rw [e1 h] at hx; simp at hx
    · rw [e2 h] at hx; simp at hx
    · rw [e3 h] at hx; simp at hx
    · exact h
  exact ⟨⟨f1, e1⟩, ⟨f2, e2⟩, ⟨f3, e3⟩, ⟨f4, e4⟩⟩

/-- C5 counterexample: at purchase price 3000 and rent 12 with a 100 %
cost ratio the annual cashflow is exactly 0, and the unguarded division
computing the payback raises `ZeroDivisionError` instead of returning a
non-finite sentinel. -/
theorem payback_zero_cashflow_error :
    annual_cashflow 12 100 = 0 ∧
    payback_years 3000 12 100 = Except.error "ZeroDivisionError" := by
  constructor
  · norm_num [annual_cashflow]
  · norm_num [payback_years, pyDiv, annual_cashflow]

/-- C5 (amended): a zero annual cashflow makes the bare division raise
`ZeroDivisionError` (see the counterexample), but such inputs are
unreachable through the widgets: within the widget bounds
(price ≥ 500, rent ≥ 5, cost ≤ 50 %) the annual cashflow is at least 30,
so the payback computation never divides by zero and returns a finite
positive number of years. -/
theorem payback_within_widget_bounds (price rent cost : ℚ)
    (hp : 500 ≤ price) (hr : 5 ≤ rent) (hc : cost ≤ 50) :
    30 ≤ annual_cashflow rent cost ∧
    ∃ q : ℚ, payback_years price rent cost = Except.ok q ∧ 0 < q := by
  have hcf : 30 ≤ annual_cashflow rent cost := by
    unfold annual_cashflow
    nlinarith
  refine ⟨hcf, price / annual_cashflow rent cost, ?_, ?_⟩
  · unfold payback_years pyDiv
    rw [if_neg (by linarith)]
  · exact div_pos (by linarith) (by linarith)

/-- C5 witness: the widget-domain payback theorem at the default widget
values (price 3000, rent 12, cost 20 %). -/
theorem payback_within_widget_bounds_witness :
    30 ≤ annual_cashflow 12 20 ∧
    ∃ q : ℚ, payback_years 3000 12 20 = Except.ok q ∧ 0 < q :=
  payback_within_widget_bounds 3000 12 20 (by norm_num) (by norm_num)
    (by norm_num)

/-- Two distinct members of a list occur in one of the two orders. -/
theorem pair_sublist_of_mem {α : Type _} {a b : α} {l : List α}
    (ha : a ∈ l) (hb : b ∈ l) (hne : a ≠ b) :
    [a, b].Sublist l ∨ [b, a].Sublist l := by
  induction l with
  | nil => cases ha
  | cons c t ih =>
    rcases List.mem_cons.mp ha with rfl | ha2
    · have hb2 : b ∈ t := by
        rcases List.mem_cons.mp hb with rfl | h
        · exact absurd rfl hne
        · exact h
      exact Or.inl ((List.singleton_sublist.mpr hb2).cons₂ a)
    · rcases List.mem_cons.mp hb with rfl | hb2
      · exact Or.inr ((List.singleton_sublist.mpr ha2).cons₂ b)
      · rcases ih ha2 hb2 with h | h
        · exact Or.inl (h.cons c)
        · exact Or.inr (h.cons c)

/-- In a duplicate-free list, two distinct elements occur in only one
order. -/
theorem not_pair_sublist_both {α : Type _} {a b : α} {l : List α}
    (hnd : l.Nodup) (hne : a ≠ b)
    (h1 : [a, b].Sublist l) (h2 : [b, a].Sublist l) :
    False := by
  induction l with
  | nil => cases h1
  | cons c t ih =>
    rcases List.nodup_cons.mp hnd with ⟨hc, hndt⟩
    cases h1 with
    | cons _ h1' =>
      cases h2 with
      | cons _ h2' => exact ih hndt h1' h2'
      | cons₂ _ h2' => exact hc (h1'.subset (by simp))
    | cons₂ _ h1' =>
      cases h2 with
      | cons _ h2' => exact hc (h2'.subset (by simp))
      | cons₂ _ h2' => exact hne rfl

/-- Stability of the embedded ascending sort: on a list pairwise ordered
by a secondary relation `s` that distinguishes its elements, sorting by
mean unit price leaves tied rows in `s` order, so the output is sorted
by the lexicographic pair (mean unit price, `s`). -/
theorem insertionSort_tie_pairwise (s : WardRow → WardRow → Prop)
    (hs : ∀ a b : WardRow, s a b → a ≠ b) (l : List WardRow)
    (hl : l.Pairwise s) :
    (List.insertionSort (fun a b => a.unitPriceMean ≤ b.unitPriceMean) l).Pairwise
      (fun a b => a.unitPriceMean < b.unitPriceMean ∨
        (a.unitPriceMean = b.unitPriceMean ∧ s a b)) := by
  haveI : IsTotal WardRow (fun a b => a.unitPriceMean ≤ b.unitPriceMean) :=
    ⟨fun a b => le_total _ _⟩
  haveI : IsTrans WardRow (fun a b => a.unitPriceMean ≤ b.unitPriceMean) :=
    ⟨fun a b c hab hbc => le_trans hab hbc⟩
  have hnd : l.Nodup := by
    refine hl.imp ?_
    intro a b h
    exact hs a b h
  have hnd2 :
      (List.insertionSort (fun a b => a.unitPriceMean ≤ b.unitPriceMean) l).Nodup :=
    (List.perm_insertionSort _ l).symm.nodup hnd
  have hsorted :
      (List.insertionSort (fun a b => a.unitPriceMean ≤ b.unitPriceMean) l).Pairwise
        (fun a b => a.unitPriceMean ≤ b.unitPriceMean) :=
    List.sorted_insertionSort _ l
  rw [List.pairwise_iff_forall_sublist]
  intro a b hab
  have hle : a.unitPriceMean ≤ b.unitPriceMean :=
    List.pairwise_iff_forall_sublist.mp hsorted hab
  rcases lt_or_eq_of_le hle with hlt | heq
  · exact Or.inl hlt
  · refine Or.inr ⟨heq, ?_⟩
    have hpairne : [a, b].Nodup := hnd2.sublist hab
    have hne : a ≠ b := by
      rcases List.nodup_cons.mp hpairne with ⟨hx, -⟩
      simp only [List.mem_singleton] at hx
      exact hx
    have ham : a ∈ l := (List.mem_insertionSort _).mp (hab.subset (by simp))
    have hbm : b ∈ l := (List.mem_insertionSort _).mp (hab.subset (by simp))
    rcases pair_sublist_of_mem ham hbm hne with hp | hp
    · exact List.pairwise_iff_forall_sublist.mp hl hp
    · exfalso
      have hba : b.unitPriceMean ≤ a.unitPriceMean := le_of_eq heq.symm
      have hsub :
          [b, a].Sublist
            (List.insertionSort (fun a b => a.unitPriceMean ≤ b.unitPriceMean) l) :=
        List.pair_sublist_insertionSort hba hp
      exact not_pair_sublist_both hnd2 hne hab hsub

/-- The groupby keys come out strictly increasing: distinct and sorted. -/
theorem sortedWards_pairwise_lt (view : List Record) :
    (sortedWards view).Pairwise (fun a b => a.data < b.data) := by
  haveI : IsTotal String (fun a b : String => a.data ≤ b.data) :=
    ⟨fun a b => le_total _ _⟩
  haveI : IsTrans String (fun a b : String => a.data ≤ b.data) :=
    ⟨fun a b c hab hbc => le_trans hab hbc⟩
  have hnd : (wardNames view).Nodup := List.nodup_dedup _
  have hnd2 : (sortedWards view).Nodup :=
    (List.perm_insertionSort _ _).symm.nodup hnd
  have hs : (sortedWards view).Pairwise (fun a b : String => a.data ≤ b.data) :=
    List.sorted_insertionSort _ _
  rw [List.pairwise_iff_forall_sublist]
  intro a b hab
  have h1 : a.data ≤ b.data := List.pairwise_iff_forall_sublist.mp hs hab
  have hpairne : [a, b].Nodup := hnd2.sublist hab
  have hne : a ≠ b := by
    rcases List.nodup_cons.mp hpairne with ⟨hx, -⟩
    simp only [List.mem_singleton] at hx
    exact hx
  refine lt_of_le_of_ne h1 ?_
  intro hd
  apply hne
  cases a
  cases b
  exact congrArg String.mk (by simpa using hd)

/-- The grouped rows inherit the strictly increasing ward keys. -/
theorem groupRows_pairwise (view : List Record) :
    (groupRows view).Pairwise (fun a b => a.ward.data < b.ward.data) := by
  unfold groupRows
  rw [List.pairwise_map]
  exact sortedWards_pairwise_lt view

/-- C6: the grouped ward table is keyed by ward — it is a permutation of
the per-ward aggregation rows (each holding the group's mean of every
numeric field and its record count), with exactly one row per distinct
ward of the Filtered View — and its rows are sorted by descending mean
unit price with ties between equal means broken by the ascending
(lexical) ward order, because pandas' descending sort is stable and the
groupby output is in ascending ward order; the order is deterministic. -/
theorem ward_stats_content_and_order (view : List Record) :
    (ward_stats view).Perm (groupRows view) ∧
    ((ward_stats view).map (fun row => row.ward)).Perm (sortedWards view) ∧
    (ward_stats view).Pairwise (fun a b =>
      b.unitPriceMean < a.unitPriceMean ∨
        (b.unitPriceMean = a.unitPriceMean ∧ a.ward.data < b.ward.data)) := by
  have hperm : (ward_stats view).Perm (groupRows view) :=
    (List.reverse_perm _).trans
      ((List.perm_insertionSort _ _).trans (List.reverse_perm _))
  refine ⟨hperm, ?_, ?_⟩
  · have hmap : (groupRows view).map (fun row => row.ward) = sortedWards view := by
      unfold groupRows
      rw [List.map_map]
      exact List.map_id _
    have h2 := hperm.map (fun row => row.ward)
    rw [hmap] at h2
    exact h2
  · unfold ward_stats
    rw [List.pairwise_reverse]
    have hrev : ((groupRows view).reverse).Pairwise
        (fun a b => b.ward.data < a.ward.data) :=
      List.pairwise_reverse.mpr (groupRows_pairwise view)
    exact insertionSort_tie_pairwise (fun a b => b.ward.data < a.ward.data)
      (fun a b hab heq => by rw [heq] at hab; exact lt_irrefl _ hab)
      ((groupRows view).reverse) hrev

/-- Concrete check of the descending sort's tie stability: two wards
tied at the same mean unit price keep their ascending lexical order in
the grouped table. -/
theorem ward_stats_tie_example :
    (ward_stats
        [⟨"A区", 40, 10, 5, 50, 2000⟩, ⟨"B区", 45, 12, 6, 50, 2250⟩]).map
      (fun row => row.ward) = ["A区", "B区"] ∧
    (mkWardRow [⟨"A区", 40, 10, 5, 50, 2000⟩, ⟨"B区", 45, 12, 6, 50, 2250⟩]
        "A区").unitPriceMean =
      (mkWardRow [⟨"A区", 40, 10, 5, 50, 2000⟩, ⟨"B区", 45, 12, 6, 50, 2250⟩]
        "B区").unitPriceMean := by
  refine ⟨?_, rfl⟩
  have h2 : sortedWards
      [(⟨"A区", 40, 10, 5, 50, 2000⟩ : Record), ⟨"B区", 45, 12, 6, 50, 2250⟩] =
      ["A区", "B区"] := by
    rw [sortedWards, wardNames]
    rw [show ([(⟨"A区", 40, 10, 5, 50, 2000⟩ : Record),
        ⟨"B区", 45, 12, 6, 50, 2250⟩].map (fun r => r.ward)) = ["A区", "B区"]
      from rfl]
    rw [List.Nodup.dedup (by decide)]
    decide
  unfold ward_stats groupRows
  rw [h2]
  rw [show ((["A区", "B区"].map (mkWardRow
      [(⟨"A区", 40, 10, 5, 50, 2000⟩ : Record),
       ⟨"B区", 45, 12, 6, 50, 2250⟩])).reverse) =
    [mkWardRow [(⟨"A区", 40, 10, 5, 50, 2000⟩ : Record),
        ⟨"B区", 45, 12, 6, 50, 2250⟩] "B区",
     mkWardRow [(⟨"A区", 40, 10, 5, 50, 2000⟩ : Record),
        ⟨"B区", 45, 12, 6, 50, 2250⟩] "A区"] from rfl]
  have hle : (mkWardRow [(⟨"A区", 40, 10, 5, 50, 2000⟩ : Record),
        ⟨"B区", 45, 12, 6, 50, 2250⟩] "B区").unitPriceMean ≤
      (mkWardRow [(⟨"A区", 40, 10, 5, 50, 2000⟩ : Record),
        ⟨"B区", 45, 12, 6, 50, 2250⟩] "A区").unitPriceMean :=
    le_of_eq rfl
  simp only [List.insertionSort, List.orderedInsert]
  rw [if_pos hle]
  rfl

/-- C7 counterexample: for a Filtered View with a single record of area
40, the bands 50-70㎡ and 70-100㎡ have no member records, yet the
banded-yield table still carries rows for them, holding NaN: empty bands
are not omitted, because groupby on a categorical keeps every declared
category by default. -/
theorem empty_band_not_omitted :
    bandGroup [⟨"北区", 40, 10, 5, 55, 2200⟩] "50-70㎡" = [] ∧
    ("50-70㎡", PdVal.nan, PdVal.nan) ∈
      area_yield_table [⟨"北区", 40, 10, 5, 55, 2200⟩] ∧
    (area_yield_table [⟨"北区", 40, 10, 5, 55, 2200⟩]).length = 3 := by
  refine ⟨by decide, by decide, by decide⟩

/-- C7 (amended): the banded-yield table always has one row per declared
band, in label order; a band with member records carries its mean unit
price and the estimated yield (12 × 12) / (mean × 60) × 100 with the
fixed reference area 60, while a band with no member records carries NaN
in both columns instead of being omitted. -/
theorem banded_yield_table_behavior (view : List Record) :
    (area_yield_table view).map (fun p => p.1) = bandLabels ∧
    area_yield_table view = bandLabels.map (fun b =>
      if (bandGroup view b).isEmpty then (b, PdVal.nan, PdVal.nan)
      else
        (b,
         PdVal.val (((bandGroup view b).map (fun r => r.unitPrice)).sum /
           (bandGroup view b).length),
         PdVal.val (12 * 12 /
           ((((bandGroup view b).map (fun r => r.unitPrice)).sum /
             (bandGroup view b).length) * 60) * 100))) := by
  constructor
  · unfold area_yield_table area_yield
    rw [List.map_map, List.map_map]
    exact List.map_id _
  · unfold area_yield_table area_yield
    rw [List.map_map]
    apply List.map_congr_left
    intro b _
    by_cases hb : (bandGroup view b).isEmpty
    · have hb2 : bandGroup view b = [] := List.isEmpty_iff.mp hb
      simp [seriesMean, hb2, estimatedYield]
    · have hb2 : ¬ bandGroup view b = [] := fun h => hb (by simp [h])
      simp [seriesMean, hb2, estimatedYield]

/-- C9: no operation of the script writes the cached dataset: filtering
starts from `df.copy()`, the band column mutates only the filtered
frame, and the remaining operations only read state — so after any
sequence of operations the dataset equals its load-time value, record
for record and field for field. -/
theorem dataset_never_mutated (s : AppState) (ops : List AppOp) :
    (runApp s ops).df = s.df := by
  induction ops generalizing s with
  | nil => rfl
  | cons op rest ih =>
    have h1 : runApp s (op :: rest) = runApp (stepApp s op) rest := rfl
    rw [h1, ih]
    cases op <;> rfl

/-- C10: adding the band column mutates the Filtered View in place: its
records — row count and every pre-existing field — are unchanged, while
the export and the preview gain the extra 面積帯 column beyond the
dataset's original column set; in a full script run the export happens
after the band column has been added, so the exported frame is exactly
the banded one. -/
theorem band_column_added_and_exported (f : Frame) (s : AppState) (c : Criteria) :
    (addBandColumn f).recs = f.recs ∧
    (csvRows (addBandColumn f)).length = f.recs.length ∧
    csvHeader (addBandColumn f) = baseHeader ++ ["面積帯"] ∧
    "面積帯" ∉ baseHeader ∧
    (csvRows (addBandColumn f)).map List.length =
      List.replicate f.recs.length (baseHeader.length + 1) ∧
    previewRows (addBandColumn f) = (csvRows (addBandColumn f)).take 20 ∧
    (runApp s (appScript c)).filtered =
      addBandColumn { recs := filterRecords s.df c, band := none } := by
  have hrows : csvRows (addBandColumn f) =
      (f.recs.zip (f.recs.map (fun r => areaBand r.area))).map
        (fun p => recordCells p.1 ++ [bandCell p.2]) := rfl
  have hz : ∀ (rs : List Record),
      ((rs.zip (rs.map (fun r => areaBand r.area))).map
        (fun p => recordCells p.1 ++ [bandCell p.2])).map List.length =
      List.replicate rs.length (baseHeader.length + 1) := by
    intro rs
    induction rs with
    | nil => rfl
    | cons r t ih =>
      simp only [List.map_cons, List.zip_cons_cons, List.length_cons,
        List.replicate_succ, List.cons.injEq]
      exact ⟨by simp [recordCells, baseHeader], ih⟩
  refine ⟨rfl, ?_, rfl, by decide, ?_, rfl, rfl⟩
  · rw [hrows]
    simp [List.length_zip]
  · rw [hrows]
    exact hz f.recs
